import Mathlib

/-!
Verification of the `lsh` shell (src/main.c) against its specification.

The C program is embedded shallowly:
* C strings become `List Char` / `String`.
* The `strtok` loop of `lsh_split_line` becomes `lsh_tokens` (the maximal
  runs of non-delimiter characters, in order), plus `splitGo`, which models
  the token-array writes together with the `position`/`bufsize` bookkeeping
  and the `realloc` growth.
* Process-level effects (stdout, stderr, the working directory) become an
  explicit `ShellState` threaded through the handlers; the outcome of
  `fork`/`execvp` becomes a `LaunchOutcome` parameter; the outcome of
  `getline` becomes a `GetlineResult` parameter.
* A NULL-terminated `char **` argument vector is modelled by the list of
  its stored tokens: `args[0] == NULL` corresponds to the empty list, and
  reading `args[i]` past the stored tokens (which in C hits the NULL
  sentinel) corresponds to `List.get? = none`.
-/

namespace LSH

/-- `#define LSH_TOK_BUFSIZE 64` -/
def LSH_TOK_BUFSIZE : Nat := 64

/-- `#define LSH_TOK_DELIM "\t\r\n\a"` — tab, carriage return, newline,
bell.  Note: the string in src/main.c contains no space character. -/
def LSH_TOK_DELIM : List Char := ['\t', '\r', '\n', Char.ofNat 7]

/-- Membership of a character in the `strtok` delimiter set. -/
def isDelim (c : Char) : Bool := LSH_TOK_DELIM.contains c

/-- Helper for `lsh_tokens`: `acc` holds the (reversed) characters of the
current partially-read token. -/
def lshTokensGo : List Char → List Char → List (List Char)
  | [], acc => if acc.isEmpty then [] else [acc.reverse]
  | c :: rest, acc =>
    if isDelim c then
      if acc.isEmpty then lshTokensGo rest []
      else acc.reverse :: lshTokensGo rest []
    else lshTokensGo rest (c :: acc)

/-- The sequence of tokens produced by the repeated `strtok(·, LSH_TOK_DELIM)`
calls in `lsh_split_line`: the maximal runs of non-delimiter characters of
the line, in order (`strtok` returns no empty fields). -/
def lsh_tokens (l : List Char) : List (List Char) := lshTokensGo l []

/-- The tokens of a line, as strings. -/
def tokensOfLine (line : String) : List String :=
  (lsh_tokens line.data).map (fun t => String.mk t)

/-- The storing loop of `lsh_split_line`: the state is
`(stored tokens so far, position, bufsize)`.  Each iteration stores the next
token at index `position` (`tokens[position] = token; position++`) and, when
`position >= bufsize`, grows the buffer (`bufsize += LSH_TOK_BUFSIZE`,
`realloc`), which preserves the stored prefix. -/
def splitGo : List String → List String × Nat × Nat → List String × Nat × Nat
  | [], st => st
  | t :: rest, (stored, position, bufsize) =>
    if position + 1 ≥ bufsize then
      splitGo rest (stored ++ [t], position + 1, bufsize + LSH_TOK_BUFSIZE)
    else
      splitGo rest (stored ++ [t], position + 1, bufsize)

/-- `lsh_split_line`: tokenize the line with `strtok`, store the tokens in a
growable array starting at capacity `LSH_TOK_BUFSIZE`, and terminate the
array with a NULL sentinel (`tokens[position] = NULL`), modelled as a final
`none` entry. -/
def lsh_split_line (line : String) : List (Option String) :=
  ((splitGo (tokensOfLine line) ([], 0, LSH_TOK_BUFSIZE)).1).map some ++ [none]

/-- The observable process-level state threaded through the handlers:
current working directory, the lines written to stdout and to stderr. -/
structure ShellState where
  cwd : String
  out : List String
  err : List String
deriving DecidableEq, Repr

/-- `perror(tag)` writes one line `tag: <system error text>` to stderr; the
error text comes from `errno`, which is outside the program, so it is kept
abstract. -/
def perrorLine (tag : String) : String := tag ++ ": <system error message>"

/-- Abstract file system: `fs d = true` iff `chdir(d)` succeeds. -/
def FileSystem := String → Bool

/-- `lsh_cd`: if `args[1]` is NULL print a usage error to stderr, otherwise
`chdir(args[1])` and on failure `perror("lsh")`; always return 1.
`args.get? 1 = none` models `args[1] == NULL` (reading past the stored
tokens hits the NULL sentinel of the C array). -/
def lsh_cd (fs : FileSystem) (args : List String) (s : ShellState) :
    Nat × ShellState :=
  match args.get? 1 with
  | none =>
    (1, { s with err := s.err ++ ["lsh: expected argument to \"cd\""] })
  | some dir =>
    if fs dir then (1, { s with cwd := dir })
    else (1, { s with err := s.err ++ [perrorLine "lsh"] })

/-- The array `builtin_str` of builtin command names, in declaration order. -/
def builtin_str : List String := ["cd", "help", "exit"]

/-- The lines printed by `lsh_help`: the banner, one line `" %s\n"` per entry
of `builtin_str`, and the closing hint. -/
def helpLines : List String :=
  ["LSH",
   "Type program names and arguments, and hit enter.",
   "The following are built in:"] ++
  builtin_str.map (fun b => " " ++ b) ++
  ["Use the man command for information on other programs."]

/-- `lsh_help`: print the banner and the builtin names to stdout; the
argument vector is never read; always return 1. -/
def lsh_help (_args : List String) (s : ShellState) : Nat × ShellState :=
  (1, { s with out := s.out ++ helpLines })

/-- `lsh_exit`: return 0 (the signal for the command loop to terminate);
no other effect. -/
def lsh_exit (_args : List String) (s : ShellState) : Nat × ShellState :=
  (0, s)

/-- The possible outcomes of the `fork`/`execvp` pair in `lsh_launch`,
which are decided by the operating system, not by the program. -/
inductive LaunchOutcome where
  | forkFail
  | execFail
  | ran (exitStatus : Nat)
deriving DecidableEq, Repr

/-- `lsh_launch`: fork; in the child `execvp(args[0], args)` and on failure
`perror("lsh")` and exit the child with `EXIT_FAILURE`; if the fork itself
fails, `perror("lsh")` in the parent; otherwise the parent `waitpid`s until
the child exits or is signalled.  In every case the function returns 1. -/
def lsh_launch (o : LaunchOutcome) (_args : List String) (s : ShellState) :
    Nat × ShellState :=
  match o with
  | .forkFail => (1, { s with err := s.err ++ [perrorLine "lsh"] })
  | .execFail => (1, { s with err := s.err ++ [perrorLine "lsh"] })
  | .ran _ => (1, s)

/-- The array `builtin_func` of handlers, in the same order as
`builtin_str`; `lsh_help` and `lsh_exit` do not touch the file system. -/
def builtin_func :
    List (FileSystem → List String → ShellState → Nat × ShellState) :=
  [lsh_cd, fun _ => lsh_help, fun _ => lsh_exit]

/-- `lsh_execute`: if `args[0] == NULL` (empty token list) return 1;
otherwise scan `builtin_str` in order for an exact `strcmp` match with
`args[0]` and run the matching `builtin_func` entry; if none matches,
`lsh_launch(args)`. -/
def lsh_execute (fs : FileSystem) (o : LaunchOutcome) (args : List String)
    (s : ShellState) : Nat × ShellState :=
  match args with
  | [] => (1, s)
  | cmd :: _ =>
    match (List.zip builtin_str builtin_func).find? (fun p => p.1 = cmd) with
    | some p => p.2 fs args s
    | none => lsh_launch o args s

/-- `EXIT_SUCCESS` -/
def EXIT_SUCCESS : Nat := 0

/-- `EXIT_FAILURE` -/
def EXIT_FAILURE : Nat := 1

/-- The possible outcomes of the `getline` call in `lsh_read_line`, decided
by the input stream: a line was read, end-of-input was reached (`feof`), or
some other read error occurred. -/
inductive GetlineResult where
  | line (l : String)
  | eof
  | readError
deriving DecidableEq, Repr

/-- What `lsh_read_line` does: either return the line to the caller, or
terminate the whole process (never returning) with the given exit code after
writing the given lines to stderr. -/
inductive ReadLineResult where
  | ok (l : String)
  | exitProcess (code : Nat) (errLines : List String)
deriving DecidableEq, Repr

/-- `lsh_read_line`: `getline` from stdin; on `-1` with `feof(stdin)` call
`exit(EXIT_SUCCESS)`; on `-1` otherwise `perror("readline")` and
`exit(EXIT_FAILURE)`; on success return the line. -/
def lsh_read_line : GetlineResult → ReadLineResult
  | .line l => .ok l
  | .eof => .exitProcess EXIT_SUCCESS []
  | .readError => .exitProcess EXIT_FAILURE [perrorLine "readline"]

/-- How a run of the whole process ends: the process exited with a code, or
the supplied model of the input stream ran out of events. -/
inductive ProcOutcome where
  | exited (code : Nat) (s : ShellState)
  | pending (s : ShellState)
deriving DecidableEq, Repr

/-- One iteration's worth of environment input: the `getline` outcome and,
if an external launch happens this iteration, its outcome. -/
def LoopInput := List (GetlineResult × LaunchOutcome)

/-- `lsh_loop` followed by `main`'s `return EXIT_SUCCESS`: print the prompt,
read a line, split it, execute it, and repeat while the status is nonzero;
when `lsh_execute` returns 0 the loop ends and `main` returns
`EXIT_SUCCESS`; when `lsh_read_line` terminates the process, that exit code
stands. -/
def lsh_main (fs : FileSystem) : LoopInput → ShellState → ProcOutcome
  | [], s => .pending s
  | (g, o) :: rest, s =>
    let s1 := { s with out := s.out ++ ["> "] }
    match lsh_read_line g with
    | .exitProcess c e => .exited c { s1 with err := s1.err ++ e }
    | .ok line =>
      let st2 := lsh_execute fs o (tokensOfLine line) s1
      if st2.1 = 0 then .exited EXIT_SUCCESS st2.2
      else lsh_main fs rest st2.2

/-- Closed form of the token-storing loop of `lsh_split_line`: starting from
a state whose capacity is `64 * (p / 64) + 64` (the invariant shape produced
by growth in increments of `LSH_TOK_BUFSIZE = 64` from the initial capacity
64), processing `toks` appends them all in order, advances the position by
their number, and keeps the capacity in the invariant shape. -/
theorem splitGo_closed (toks : List String) :
    ∀ (stored : List String) (p : Nat),
      splitGo toks (stored, p, 64 * (p / 64) + 64) =
        (stored ++ toks, p + toks.length,
         64 * ((p + toks.length) / 64) + 64) := by
  induction toks with
  | nil => intro stored p; simp [splitGo]
  | cons t rest ih =>
    intro stored p
    by_cases hge : p + 1 ≥ 64 * (p / 64) + 64
    · have h1 : 64 * (p / 64) + 64 + LSH_TOK_BUFSIZE = 64 * ((p + 1) / 64) + 64 := by
        simp only [LSH_TOK_BUFSIZE]; omega
      have h2 : splitGo (t :: rest) (stored, p, 64 * (p / 64) + 64) =
          splitGo rest (stored ++ [t], p + 1, 64 * ((p + 1) / 64) + 64) := by
        rw [splitGo, if_pos hge, h1]
      rw [h2, ih]
      simp [List.append_assoc]
      omega
    · have h1 : 64 * (p / 64) + 64 = 64 * ((p + 1) / 64) + 64 := by omega
      have h2 : splitGo (t :: rest) (stored, p, 64 * (p / 64) + 64) =
          splitGo rest (stored ++ [t], p + 1, 64 * ((p + 1) / 64) + 64) := by
        rw [splitGo, if_neg hge, h1]
      rw [h2, ih]
      simp [List.append_assoc]
      omega

/-- C1: the spec claims `lsh_split_line` splits on any run of
whitespace/tab/newline/carriage-return/bell and that tokenizing
`"  ls   -l\t/tmp\n"` yields `["ls", "-l", "/tmp"]`.  The code's delimiter
string `LSH_TOK_DELIM = "\t\r\n\a"` does not contain the space character
(unlike the code's own comment, which says arguments are separated by
whitespace), so spaces are kept inside tokens: the example line tokenizes
to `["  ls   -l", "/tmp"]`, not `["ls", "-l", "/tmp"]`. -/
theorem c1_space_not_a_delimiter :
    ' ' ∉ LSH_TOK_DELIM ∧
    lsh_split_line "  ls   -l\t/tmp\n" = [some "  ls   -l", some "/tmp", none] ∧
    lsh_split_line "  ls   -l\t/tmp\n" ≠
      [some "ls", some "-l", some "/tmp", none] := by
  refine ⟨by decide, by decide, by decide⟩

/-- C2: the spec claims every empty or whitespace-only line dispatches to
the continue signal with no output.  A line of spaces only, `"   \n"`,
tokenizes to the single token `"   "` (space is not in `LSH_TOK_DELIM`),
which matches no builtin, so `lsh_execute` delegates to `lsh_launch`; the
attempted external launch of the program `"   "` fails `execvp` and writes
a diagnostic line, so output is produced.  (The return value is still 1.) -/
theorem c2_space_only_line_produces_output :
    tokensOfLine "   \n" = ["   "] ∧
    (∀ fs s, lsh_execute fs .execFail (tokensOfLine "   \n") s =
        lsh_launch .execFail ["   "] s) ∧
    lsh_execute (fun _ => false) .execFail (tokensOfLine "   \n")
        ⟨"/", [], []⟩ =
      (1, { cwd := "/", out := [], err := [perrorLine "lsh"] }) := by
  refine ⟨by decide, fun fs s => rfl, by rfl⟩

set_option maxRecDepth 40000

/-- C5: the spec claims tokenizing a line with more than 64 space-separated
tokens yields all of them in order.  Because space is not in
`LSH_TOK_DELIM`, a line of 65 space-separated words is ONE token, not 65.
The nearby true statement: for 65 tab-separated words the tokenizer does
yield all 65 tokens in order (the buffer, initially of capacity 64, grows
by 64), terminated by the NULL sentinel. -/
theorem c5_65_space_separated_words_are_one_token :
    (tokensOfLine (String.intercalate " " (List.replicate 65 "a") ++ "\n")).length
      = 1 ∧
    tokensOfLine (String.intercalate " " (List.replicate 65 "a") ++ "\n") =
      [String.intercalate " " (List.replicate 65 "a")] ∧
    lsh_split_line (String.intercalate "\t" (List.replicate 65 "a") ++ "\n") =
      (List.replicate 65 "a").map some ++ [none] := by
  refine ⟨by decide, by decide, by decide⟩

/-- C7: `lsh_launch` returns the continue signal 1 for every token sequence
and every fork/exec outcome; a failed fork and a failed exec each add one
diagnostic line to the error stream and the function still returns 1 to the
caller (the loop is never terminated by a launch). -/
theorem c7_launch_always_continues (o : LaunchOutcome) (args : List String)
    (s : ShellState) :
    (lsh_launch o args s).1 = 1 ∧
    lsh_launch .forkFail args s =
      (1, { s with err := s.err ++ [perrorLine "lsh"] }) ∧
    lsh_launch .execFail args s =
      (1, { s with err := s.err ++ [perrorLine "lsh"] }) ∧
    (∀ c, lsh_launch (.ran c) args s = (1, s)) := by
  refine ⟨?_, rfl, rfl, fun c => rfl⟩
  cases o <;> rfl

/-- C8: `lsh_read_line` on end-of-input terminates the process with
`EXIT_SUCCESS` (writing nothing), and on any other read failure writes one
diagnostic line and terminates the process with `EXIT_FAILURE`; in both
cases the result is a process exit, not a value returned to the caller. -/
theorem c8_read_line_exit_paths :
    lsh_read_line .eof = .exitProcess EXIT_SUCCESS [] ∧
    EXIT_SUCCESS = 0 ∧
    lsh_read_line .readError =
      .exitProcess EXIT_FAILURE [perrorLine "readline"] ∧
    EXIT_FAILURE = 1 := by
  exact ⟨rfl, rfl, rfl, rfl⟩

/-- C9: `lsh_help` writes the fixed banner followed by exactly the three
builtin names `cd`, `help`, `exit`, one per line and in that order (each
printed as `" %s\n"`), plus the closing hint line; the argument vector is
ignored entirely and the return value is always the continue signal 1. -/
theorem c9_help_fixed_output (args : List String) (s : ShellState) :
    lsh_help args s = (1, { s with out := s.out ++ helpLines }) ∧
    lsh_help args s = lsh_help [] s ∧
    helpLines =
      ["LSH",
       "Type program names and arguments, and hit enter.",
       "The following are built in:"] ++
      builtin_str.map (fun b => " " ++ b) ++
      ["Use the man command for information on other programs."] ∧
    builtin_str.map (fun b => " " ++ b) = [" cd", " help", " exit"] := by
  exact ⟨rfl, rfl, rfl, by decide⟩

/-- C3: for a token sequence whose first token equals a builtin name (the
names `cd`, `help`, `exit` are compared in that fixed order), `lsh_execute`
runs that builtin handler and returns its result — external launch is never
attempted; for a non-empty token sequence whose first token matches no
builtin name, `lsh_execute` delegates to `lsh_launch`. -/
theorem c3_dispatch_policy (fs : FileSystem) (o : LaunchOutcome)
    (args : List String) (s : ShellState) (cmd : String)
    (h : args.head? = some cmd) :
    (cmd = "cd" → lsh_execute fs o args s = lsh_cd fs args s) ∧
    (cmd = "help" → lsh_execute fs o args s = lsh_help args s) ∧
    (cmd = "exit" → lsh_execute fs o args s = lsh_exit args s) ∧
    (cmd ∉ builtin_str → lsh_execute fs o args s = lsh_launch o args s) := by
  cases args with
  | nil => simp at h
  | cons a t =>
    simp only [List.head?, Option.some.injEq] at h
    subst h
    refine ⟨?_, ?_, ?_, ?_⟩
    · intro hc; subst hc; rfl
    · intro hc; subst hc; rfl
    · intro hc; subst hc; rfl
    · intro hn
      simp only [builtin_str, List.mem_cons, List.not_mem_nil, or_false,
        not_or] at hn
      obtain ⟨h1, h2, h3⟩ := hn
      simp only [lsh_execute, builtin_str, builtin_func, List.zip,
        List.zipWith, List.find?]
      rw [decide_eq_false (fun hh => h1 hh.symm),
        decide_eq_false (fun hh => h2 hh.symm),
        decide_eq_false (fun hh => h3 hh.symm)]

/-- Witness for C3 at a concrete input: the first token `exit` dispatches
to `lsh_exit`. -/
theorem c3_dispatch_policy_witness :
    (["exit", "now"] : List String).head? = some "exit" ∧
    lsh_execute (fun _ => true) (.ran 0) ["exit", "now"] ⟨"/", [], []⟩ =
      lsh_exit ["exit", "now"] ⟨"/", [], []⟩ :=
  ⟨rfl, (c3_dispatch_policy (fun _ => true) (.ran 0) ["exit", "now"]
    ⟨"/", [], []⟩ "exit" rfl).2.2.1 rfl⟩

/-- C4: `lsh_exit` returns the stop signal 0 with no side effect, whatever
its arguments; `lsh_cd`, `lsh_help` and `lsh_launch` always return 1, so
`lsh_exit` is the only builtin returning 0; and dispatching a line whose
first token is `exit` makes `lsh_main` terminate the loop with process exit
status `EXIT_SUCCESS`, from any prior shell state (command history) and for
any remaining input. -/
theorem c4_exit_stops_loop :
    (∀ args s, lsh_exit args s = (0, s)) ∧
    (∀ fs args s, (lsh_cd fs args s).1 = 1) ∧
    (∀ args s, (lsh_help args s).1 = 1) ∧
    (∀ o args s, (lsh_launch o args s).1 = 1) ∧
    (∀ fs o line rest s, (tokensOfLine line).head? = some "exit" →
      ∃ s2, lsh_main fs ((.line line, o) :: rest) s =
        .exited EXIT_SUCCESS s2) := by
  refine ⟨fun args s => rfl, ?_, fun args s => rfl, ?_, ?_⟩
  · intro fs args s
    unfold lsh_cd
    cases args.get? 1 with
    | none => rfl
    | some d => by_cases hd : fs d = true <;> simp [hd]
  · intro o args s; cases o <;> rfl
  · intro fs o line rest s h
    cases hT : tokensOfLine line with
    | nil => rw [hT] at h; cases h
    | cons a t =>
      rw [hT] at h
      simp only [List.head?, Option.some.injEq] at h
      subst h
      refine ⟨{ s with out := s.out ++ ["> "] }, ?_⟩
      simp only [lsh_main, lsh_read_line]
      rw [hT]
      rfl

/-- Witness for C4 at a concrete input: the line `exit` ends the run with
exit status `EXIT_SUCCESS`. -/
theorem c4_exit_stops_loop_witness :
    (tokensOfLine "exit\n").head? = some "exit" ∧
    ∃ s2, lsh_main (fun _ => true) [(.line "exit\n", .ran 0)] ⟨"/", [], []⟩ =
      .exited EXIT_SUCCESS s2 :=
  ⟨by decide, c4_exit_stops_loop.2.2.2.2 (fun _ => true) (.ran 0) "exit\n"
    [] ⟨"/", [], []⟩ (by decide)⟩

/-- C6: `lsh_cd` with no argument (`args[1] == NULL`) writes exactly one
diagnostic line to stderr, leaves the working directory unchanged and
returns 1; when `chdir` fails it writes exactly one diagnostic line, leaves
the working directory unchanged and returns 1; when `chdir` succeeds the
working directory becomes the given one and 1 is returned. -/
theorem c6_cd_behavior (fs : FileSystem) (args : List String)
    (s : ShellState) :
    (args.get? 1 = none →
      lsh_cd fs args s =
        (1, { s with err := s.err ++ ["lsh: expected argument to \"cd\""] })) ∧
    (∀ d, args.get? 1 = some d → fs d = false →
      lsh_cd fs args s = (1, { s with err := s.err ++ [perrorLine "lsh"] })) ∧
    (∀ d, args.get? 1 = some d → fs d = true →
      lsh_cd fs args s = (1, { s with cwd := d })) := by
  refine ⟨?_, ?_, ?_⟩
  · intro h; unfold lsh_cd; rw [h]
  · intro d h hd; unfold lsh_cd; rw [h]; simp [hd]
  · intro d h hd; unfold lsh_cd; rw [h]; simp [hd]

/-- Witness for C6 at concrete inputs: missing argument, failing `chdir`,
and successful `chdir` to `/tmp`. -/
theorem c6_cd_behavior_witness :
    lsh_cd (fun d => d == "/tmp") ["cd"] ⟨"/", [], []⟩ =
      (1, { cwd := "/", out := [],
            err := ["lsh: expected argument to \"cd\""] }) ∧
    lsh_cd (fun d => d == "/tmp") ["cd", "/nope"] ⟨"/", [], []⟩ =
      (1, { cwd := "/", out := [], err := [perrorLine "lsh"] }) ∧
    lsh_cd (fun d => d == "/tmp") ["cd", "/tmp"] ⟨"/", [], []⟩ =
      (1, { cwd := "/tmp", out := [], err := [] }) :=
  ⟨(c6_cd_behavior _ _ _).1 rfl,
   (c6_cd_behavior _ _ _).2.1 "/nope" rfl (by decide),
   (c6_cd_behavior _ _ _).2.2 "/tmp" rfl (by decide)⟩

/-- C10: in `lsh_split_line`, every write into the token array is in
bounds: after `i` tokens have been stored the position is `i` and is
strictly below the current capacity (so the write of the `i`-th token, and
in particular the final NULL-sentinel write at the position after the last
token, lands strictly below the allocated capacity, the capacity being
grown by 64 from its initial 64 whenever the position reaches it), and the
returned sequence is the tokens in order terminated by NULL. -/
theorem c10_token_writes_in_bounds (line : String) (i : Nat)
    (h : i ≤ (tokensOfLine line).length) :
    (splitGo ((tokensOfLine line).take i) ([], 0, LSH_TOK_BUFSIZE)).2.1 = i ∧
    i < (splitGo ((tokensOfLine line).take i) ([], 0, LSH_TOK_BUFSIZE)).2.2 ∧
    (splitGo (tokensOfLine line) ([], 0, LSH_TOK_BUFSIZE)).2.1 <
      (splitGo (tokensOfLine line) ([], 0, LSH_TOK_BUFSIZE)).2.2 ∧
    lsh_split_line line = (tokensOfLine line).map some ++ [none] := by
  have h0 : LSH_TOK_BUFSIZE = 64 * (0 / 64) + 64 := rfl
  have hc := splitGo_closed ((tokensOfLine line).take i) [] 0
  have hf := splitGo_closed (tokensOfLine line) [] 0
  rw [← h0] at hc hf
  have hlen : ((tokensOfLine line).take i).length = i := by
    rw [List.length_take]; omega
  refine ⟨?_, ?_, ?_, ?_⟩
  · rw [hc, hlen]; show 0 + i = i; omega
  · rw [hc, hlen]; show i < 64 * ((0 + i) / 64) + 64; omega
  · rw [hf]
    show 0 + (tokensOfLine line).length <
      64 * ((0 + (tokensOfLine line).length) / 64) + 64
    omega
  · unfold lsh_split_line
    rw [hf]
    simp

/-- Witness for C10 at a concrete input: the line `ls\t-l` with prefix
length 1. -/
theorem c10_token_writes_in_bounds_witness :
    (splitGo ((tokensOfLine "ls\t-l\n").take 1) ([], 0, LSH_TOK_BUFSIZE)).2.1
      = 1 ∧
    1 < (splitGo ((tokensOfLine "ls\t-l\n").take 1)
      ([], 0, LSH_TOK_BUFSIZE)).2.2 ∧
    (splitGo (tokensOfLine "ls\t-l\n") ([], 0, LSH_TOK_BUFSIZE)).2.1 <
      (splitGo (tokensOfLine "ls\t-l\n") ([], 0, LSH_TOK_BUFSIZE)).2.2 ∧
    lsh_split_line "ls\t-l\n" = (tokensOfLine "ls\t-l\n").map some ++ [none] :=
  c10_token_writes_in_bounds "ls\t-l\n" 1 (by decide)

end LSH
